import Mathlib

/-!
Shallow embedding of the faceit-users-service core: the domain `user` model,
the Postgres-backed `UserRepository` (modelled as a list of rows), the Redis
`CacheDecorator` (cache modelled as a map from structured keys to payloads),
and the domain `Service` orchestration layer.

Conventions of the embedding:
* `uuid.UUID` is modelled as `Nat` (opaque identifier, only compared for equality).
* `time.Time` is modelled as `Nat` (only compared / stamped; the wall clock is
  passed explicitly where Go calls `time.Now()`).
* Go errors are the inductive `GoErr`; `fmt.Errorf("...: %w", err)` is `GoErr.wrap`.
* `json.Marshal` of a `User` is modelled by `marshalUser`, which erases the
  `Password` field (it carries the struct tag `json:"-"`), all other fields
  being serialized injectively; two payloads are byte-identical iff the
  corresponding `marshalUser` values are equal.
* The three Redis key strings `user:<id>`, `user:email:<e>`, `user:nick:<n>`
  live in disjoint namespaces, so they are modelled by the structured type
  `CacheKey` with three constructors.
-/

/-- The `user.User` struct (internal/domain/user). `password` maps the Go
field `Password` (db column `password_hash`, json tag `-`). -/
structure UserR where
  id : Nat
  firstName : String
  lastName : String
  nickname : String
  password : String
  email : String
  country : String
  createdAt : Nat
  updatedAt : Nat
deriving DecidableEq, Repr

/-- Go error values of the user domain (internal/domain/user/errors.go),
plus `wrap msg e` for `fmt.Errorf("msg: %w", e)` and `internal` for opaque
transport/store faults. -/
inductive GoErr where
  | notFound
  | alreadyExists
  | emailTaken
  | nicknameTaken
  | validation
  | internal (msg : String)
  | wrap (msg : String) (e : GoErr)
deriving DecidableEq, Repr

/-- `errors.Is(e, target)`: compare at each level of the `%w` chain. -/
def GoErr.is : GoErr → GoErr → Bool
  | e@(.wrap _ inner), t => e == t || inner.is t
  | e, t => e == t

/-- The three cache-key namespaces `user:<id>`, `user:email:<email>`,
`user:nick:<nickname>` (part_011, `userKey`/`emailKey`/`nickKey`). The three
string formats never collide across namespaces, so keys are structured. -/
inductive CacheKey where
  | byId (id : Nat)
  | byEmail (email : String)
  | byNick (nickname : String)
deriving DecidableEq, Repr

/-- The Redis keyspace: each key holds at most one serialized payload. -/
abbrev Cache : Type := CacheKey → Option UserR

/-- `json.Marshal(u)`: the serialized payload. The `Password` field has tag
`json:"-"` and is omitted; unmarshalling therefore leaves it at the zero
value `""`. All other fields round-trip, so the payload is represented by
the record itself with `password` erased. -/
def marshalUser (u : UserR) : UserR :=
  { u with password := "" }

/-- Redis `SET key data`. -/
def cacheSet (c : Cache) (k : CacheKey) (v : UserR) : Cache :=
  fun k2 => if k2 = k then some v else c k2

/-- Redis `DEL key`. -/
def cacheDel (c : Cache) (k : CacheKey) : Cache :=
  fun k2 => if k2 = k then none else c k2

/-- The empty cache. -/
def emptyCache : Cache := fun _ => none

/-! ## Persistent store adapter (internal/repository/database/user_repository.go)

The `users` table is a list of rows; its unique constraints on `email`,
`nickname` and the primary key on `id` are part of the table semantics. -/

/-- The database table. -/
abbrev Store : Type := List UserR

/-- `UserRepository.GetByID`: `SELECT * FROM users WHERE id = $1`;
`sql.ErrNoRows` is translated to `user.ErrNotFound`. -/
def dbGetByID (st : Store) (id : Nat) : Except GoErr UserR :=
  match st.find? (fun u => u.id == id) with
  | some u => .ok u
  | none => .error .notFound

/-- `UserRepository.GetByEmail`. -/
def dbGetByEmail (st : Store) (email : String) : Except GoErr UserR :=
  match st.find? (fun u => u.email == email) with
  | some u => .ok u
  | none => .error .notFound

/-- `UserRepository.GetByNickname`. -/
def dbGetByNickname (st : Store) (nickname : String) : Except GoErr UserR :=
  match st.find? (fun u => u.nickname == nickname) with
  | some u => .ok u
  | none => .error .notFound

/-- `UserRepository.Create`: `INSERT INTO users (...)`. A violation of the
unique constraint on `email` (resp. `nickname`) is translated to
`ErrEmailTaken` (resp. `ErrNicknameTaken`); a primary-key violation is an
opaque wrapped error. -/
def dbCreate (st : Store) (u : UserR) : Except GoErr Store :=
  if st.any (fun v => v.email == u.email) then .error .emailTaken
  else if st.any (fun v => v.nickname == u.nickname) then .error .nicknameTaken
  else if st.any (fun v => v.id == u.id) then
    .error (.wrap "error creating user" (.internal "pkey"))
  else .ok (st ++ [u])

/-- `UserRepository.Update`: `UPDATE users SET first_name...country,
updated_at = time.Now() WHERE id = $8`. `created_at` is not in the SET list,
`updated_at` is stamped server-side from the clock `now`. Unique-constraint
violations translate as in `dbCreate`; zero rows affected is `ErrNotFound`. -/
def dbUpdate (st : Store) (u : UserR) (now : Nat) : Except GoErr Store :=
  if st.any (fun v => v.id != u.id && v.email == u.email) then .error .emailTaken
  else if st.any (fun v => v.id != u.id && v.nickname == u.nickname) then .error .nicknameTaken
  else if st.any (fun v => v.id == u.id) then
    .ok (st.map (fun v => if v.id == u.id then { u with createdAt := v.createdAt, updatedAt := now } else v))
  else .error .notFound

/-- `UserRepository.Delete`: `DELETE FROM users WHERE id = $1`; zero rows
affected is `ErrNotFound`. -/
def dbDelete (st : Store) (id : Nat) : Except GoErr Store :=
  if st.any (fun v => v.id == id) then .ok (st.filter (fun v => v.id != id))
  else .error .notFound

/-- `user.Filter` (internal/domain/user/repository.go). -/
structure UFilter where
  field : String
  value : String
deriving DecidableEq, Repr

/-- `user.ListParams`. -/
structure ListParams where
  limit : Int
  offset : Int
  filters : List UFilter
  orderBy : String
  orderDesc : Bool
deriving DecidableEq, Repr

/-- Value of a `users` column on a row, as text (used for `ILIKE` filters
and `ORDER BY`). -/
def columnValue (u : UserR) (field : String) : String :=
  if field = "id" then toString u.id
  else if field = "first_name" then u.firstName
  else if field = "last_name" then u.lastName
  else if field = "nickname" then u.nickname
  else if field = "password_hash" then u.password
  else if field = "email" then u.email
  else if field = "country" then u.country
  else if field = "created_at" then toString u.createdAt
  else toString u.updatedAt

/-- The columns of the `users` table: only these may appear in `ORDER BY`. -/
def tableColumns : List String :=
  ["id", "first_name", "last_name", "nickname", "password_hash",
   "email", "country", "created_at", "updated_at"]

/-- Contiguous-substring test on character lists. -/
def charsContain (pat : List Char) : List Char → Bool
  | [] => pat.isEmpty
  | b :: bs => pat.isPrefixOf (b :: bs) || charsContain pat bs

/-- ASCII lower-casing of one character (the case folding ILIKE applies). -/
def asciiLower (c : Char) : Char :=
  if 65 ≤ c.toNat ∧ c.toNat ≤ 90 then Char.ofNat (c.toNat + 32) else c

/-- `field ILIKE '%value%'`: case-insensitive substring match. -/
def ilikeMatch (u : UserR) (f : UFilter) : Bool :=
  charsContain (f.value.toList.map asciiLower)
    ((columnValue u f.field).toList.map asciiLower)

/-- Lexicographic comparison by code point (textual ordering). -/
def charListLe : List Char → List Char → Bool
  | [], _ => true
  | _ :: _, [] => false
  | a :: as, b :: bs =>
    if a.toNat < b.toNat then true
    else if b.toNat < a.toNat then false
    else charListLe as bs

/-- Row comparison for `ORDER BY field` (ascending, textual). -/
def rowLe (field : String) (a b : UserR) : Bool :=
  charListLe (columnValue a field).toList (columnValue b field).toList

/-- Insertion into a list sorted by `le`. -/
def insSorted (le : UserR → UserR → Bool) (a : UserR) : List UserR → List UserR
  | [] => [a]
  | b :: bs => if le a b then a :: b :: bs else b :: insSorted le a bs

/-- Insertion sort by `le` (models the row order produced by `ORDER BY`). -/
def sortRows (le : UserR → UserR → Bool) : List UserR → List UserR
  | [] => []
  | a :: as => insSorted le a (sortRows le as)

/-- `UserRepository.List`: builds a conjunctive `ILIKE` WHERE clause from
`params.filters`, counts with the same filter, then selects with
`ORDER BY params.orderBy [ASC|DESC] LIMIT $n OFFSET $m`. Postgres rejects
the statement when the order-by expression is not a column of the table
(e.g. the empty string), when a filter field is not a column, or when
LIMIT/OFFSET are negative; those are opaque errors wrapped by the adapter. -/
def dbList (st : Store) (params : ListParams) : Except GoErr (List UserR × Int) :=
  if !params.filters.all (fun f => tableColumns.contains f.field) then
    .error (.wrap "error counting users" (.internal "undefined column"))
  else if !tableColumns.contains params.orderBy then
    .error (.wrap "error listing users" (.internal "syntax error in ORDER BY"))
  else if params.limit < 0 || params.offset < 0 then
    .error (.wrap "error listing users" (.internal "LIMIT must not be negative"))
  else
    let filtered := st.filter (fun u => params.filters.all (fun f => ilikeMatch u f))
    let le := fun a b =>
      if params.orderDesc then rowLe params.orderBy b a else rowLe params.orderBy a b
    let page := ((sortRows le filtered).drop params.offset.toNat).take params.limit.toNat
    .ok (page, (filtered.length : Int))

/-! ## Cache-aside decorator (unnamed cache package, part_011)

The decorator holds the raw store (`c.repo` is the database repository) and
the Redis client. A `World` is the pair of the two external states. In this
deterministic layer the cache transport never faults; the fault-injecting
control-flow layer follows further below. Every operation returns its Go
result together with the post-state. -/

/-- The shared external state: the `users` table and the Redis keyspace. -/
structure World where
  store : Store
  cache : Cache

/-- `CacheDecorator.cacheUser`: marshal once, pipeline
`SET user:<id>`, `SET user:email:<email>`, `SET user:nick:<nickname>`
with the same payload bytes. -/
def cacheUser (c : Cache) (u : UserR) : Cache :=
  let data := marshalUser u
  cacheSet (cacheSet (cacheSet c (.byId u.id) data) (.byEmail u.email) data)
    (.byNick u.nickname) data

/-- `CacheDecorator.invalidateUserCache`: pipeline
`DEL user:<id>`, `DEL user:email:<email>`, `DEL user:nick:<nickname>`. -/
def invalidateUserCache (c : Cache) (u : UserR) : Cache :=
  cacheDel (cacheDel (cacheDel c (.byId u.id)) (.byEmail u.email)) (.byNick u.nickname)

/-- `CacheDecorator.Create`: delegate to the store; on success populate the
three keys. -/
def decoCreate (w : World) (u : UserR) : Except GoErr Unit × World :=
  match dbCreate w.store u with
  | .error e => (.error e, w)
  | .ok st2 => (.ok (), ⟨st2, cacheUser w.cache u⟩)

/-- `CacheDecorator.GetByID`: on cache hit return the unmarshalled payload
without touching the store; on miss fall through to the store and populate
the three keys from the returned record. -/
def decoGetByID (w : World) (id : Nat) : Except GoErr UserR × World :=
  match w.cache (.byId id) with
  | some payload => (.ok payload, w)
  | none =>
    match dbGetByID w.store id with
    | .error e => (.error e, w)
    | .ok u => (.ok u, ⟨w.store, cacheUser w.cache u⟩)

/-- `CacheDecorator.GetByEmail` (same shape as `decoGetByID`). -/
def decoGetByEmail (w : World) (email : String) : Except GoErr UserR × World :=
  match w.cache (.byEmail email) with
  | some payload => (.ok payload, w)
  | none =>
    match dbGetByEmail w.store email with
    | .error e => (.error e, w)
    | .ok u => (.ok u, ⟨w.store, cacheUser w.cache u⟩)

/-- `CacheDecorator.GetByNickname` (same shape as `decoGetByID`). -/
def decoGetByNickname (w : World) (nickname : String) : Except GoErr UserR × World :=
  match w.cache (.byNick nickname) with
  | some payload => (.ok payload, w)
  | none =>
    match dbGetByNickname w.store nickname with
    | .error e => (.error e, w)
    | .ok u => (.ok u, ⟨w.store, cacheUser w.cache u⟩)

/-- `CacheDecorator.Update`: read the pre-update record from the store,
delegate the update, invalidate the triple keyed by the old values, re-read
the updated record from the store, re-populate the triple keyed by the new
values. `now` is the server clock used by the store's `UPDATE`. -/
def decoUpdate (w : World) (u : UserR) (now : Nat) : Except GoErr Unit × World :=
  match dbGetByID w.store u.id with
  | .error e => (.error e, w)
  | .ok oldUser =>
    match dbUpdate w.store u now with
    | .error e => (.error e, w)
    | .ok st2 =>
      let c2 := invalidateUserCache w.cache oldUser
      match dbGetByID st2 u.id with
      | .error e => (.error e, ⟨st2, c2⟩)
      | .ok updatedUser => (.ok (), ⟨st2, cacheUser c2 updatedUser⟩)

/-- `CacheDecorator.Delete`: read the record from the store, delegate the
delete, invalidate the triple keyed by the pre-delete values. -/
def decoDelete (w : World) (id : Nat) : Except GoErr Unit × World :=
  match dbGetByID w.store id with
  | .error e => (.error e, w)
  | .ok u =>
    match dbDelete w.store id with
    | .error e => (.error e, w)
    | .ok st2 => (.ok (), ⟨st2, invalidateUserCache w.cache u⟩)

/-- `CacheDecorator.List`: bypasses the cache entirely. -/
def decoList (w : World) (params : ListParams) :
    Except GoErr (List UserR × Int) × World :=
  (dbList w.store params, w)

/-! ## Domain orchestrator (internal/domain/user/service.go)

`Service.repo` is the cache decorator (cmd/server/main.go wires
`NewService(cachedRepo, eventPublisher, log)`), so every `s.repo.*` call
below is a decorator operation. Events handed to the publisher are recorded
in an output list; `pubFails` injects a publisher failure, which the service
only logs. `bcrypt.GenerateFromPassword` is modelled by an uninterpreted
injective stand-in `bcryptHash`. -/

/-- Stand-in for `bcrypt.GenerateFromPassword(password, DefaultCost)`. -/
def bcryptHash (password : String) : String :=
  "bcrypt$" ++ password

/-- `events` package event types. -/
inductive EventType where
  | created
  | updated
  | deleted
deriving DecidableEq, Repr

/-- One event handed to `Publisher.Publish{Created,Updated,Deleted}User`,
carrying the affected user's id (the full payload carries the whole user;
the id is the part the claims inspect). -/
structure EventRec where
  type : EventType
  userId : Nat
deriving DecidableEq, Repr

/-- The field assignments at the top of `Service.CreateUser`: generated id,
bcrypt-hashed credential, fresh UTC timestamps. -/
def newUserFromReq (req : UserR) (newId now : Nat) : UserR :=
  { req with id := newId, password := bcryptHash req.password,
             createdAt := now, updatedAt := now }

/-- `Service.CreateUser`: hash the credential, assign id and UTC timestamps,
pre-check email then nickname uniqueness by lookup (`err == nil` means
taken), persist via the decorator, then publish a Created event whose
failure is logged and swallowed. `newId` is the generated `uuid.New()`,
`now` the clock. -/
def svcCreateUser (w : World) (req : UserR) (newId now : Nat) (pubFails : Bool) :
    Except GoErr UserR × World × List EventRec :=
  let u := newUserFromReq req newId now
  match decoGetByEmail w u.email with
  | (.ok _, w1) => (.error .emailTaken, w1, [])
  | (.error _, w1) =>
    match decoGetByNickname w1 u.nickname with
    | (.ok _, w2) => (.error .nicknameTaken, w2, [])
    | (.error _, w2) =>
      match decoCreate w2 u with
      | (.error e, w3) => (.error (.wrap "failed to save user" e), w3, [])
      | (.ok _, w3) => (.ok u, w3, [⟨.created, u.id⟩])

/-- `Service.GetUser`. -/
def svcGetUser (w : World) (id : Nat) : Except GoErr UserR × World :=
  match decoGetByID w id with
  | (.error e, w1) => (.error (.wrap "failed to get user" e), w1)
  | (.ok u, w1) => (.ok u, w1)

/-- The field-merge step of `Service.UpdateUser`: each non-empty string
field of the request overwrites the fetched copy (the Go guard
`user.X != updatedUser.X` before the assignment does not change the result). -/
def mergeNonEmpty (user : UserR) (upd : UserR) : UserR :=
  let m := if upd.firstName ≠ "" then { user with firstName := upd.firstName } else user
  let m := if upd.lastName ≠ "" then { m with lastName := upd.lastName } else m
  let m := if upd.nickname ≠ "" then { m with nickname := upd.nickname } else m
  if upd.country ≠ "" then { m with country := upd.country } else m

/-- `Service.UpdateUser`: fetch by id (NotFound propagates unchanged, other
errors wrapped), merge non-empty fields, on an email change re-check
uniqueness excluding the current id, persist via the decorator, publish an
Updated event (best-effort). -/
def svcUpdateUser (w : World) (id : Nat) (upd : UserR) (now : Nat) (pubFails : Bool) :
    Except GoErr UserR × World × List EventRec :=
  match decoGetByID w id with
  | (.error e, w1) =>
    (if e.is .notFound then (.error e, w1, [])
     else (.error (.wrap "failed to get user for update" e), w1, []))
  | (.ok user0, w1) =>
    let m := mergeNonEmpty user0 upd
    let emailStep : Except GoErr UserR × World :=
      if upd.email ≠ "" ∧ m.email ≠ upd.email then
        match decoGetByEmail w1 upd.email with
        | (.ok existing, w2) =>
          if existing.id ≠ id then (.error .emailTaken, w2)
          else (.ok { m with email := upd.email }, w2)
        | (.error _, w2) => (.ok { m with email := upd.email }, w2)
      else (.ok m, w1)
    match emailStep with
    | (.error e, w2) => (.error e, w2, [])
    | (.ok merged, w2) =>
      match decoUpdate w2 merged now with
      | (.error e, w3) => (.error (.wrap "failed to save user changes" e), w3, [])
      | (.ok _, w3) => (.ok merged, w3, [⟨.updated, merged.id⟩])

/-- `Service.DeleteUser`: fetch by id (NotFound propagates unchanged),
delete via the decorator, publish a Deleted event (best-effort) with the
pre-delete payload. -/
def svcDeleteUser (w : World) (id : Nat) (pubFails : Bool) :
    Except GoErr Unit × World × List EventRec :=
  match decoGetByID w id with
  | (.error e, w1) =>
    (if e.is .notFound then (.error e, w1, [])
     else (.error (.wrap "failed to get user for deletion" e), w1, []))
  | (.ok u, w1) =>
    match decoDelete w1 id with
    | (.error e, w2) => (.error (.wrap "failed to delete user from repository" e), w2, [])
    | (.ok _, w2) => (.ok (), w2, [⟨.deleted, u.id⟩])

/-- The allow-list of filter/order fields in `Service.ListUsers`. -/
def allowedFields : List String :=
  ["first_name", "last_name", "nickname", "email", "country"]

/-- The parameter sanitization step of `Service.ListUsers`: disallowed
filters are silently dropped; a non-empty order-by that is neither
allow-listed nor `created_at`/`updated_at` falls back to `created_at`
(an empty order-by is left untouched by the `params.OrderBy != ""` guard). -/
def sanitizeListParams (params : ListParams) : ListParams :=
  let validFilters := params.filters.filter (fun f => allowedFields.contains f.field)
  let orderBy :=
    if params.orderBy ≠ "" then
      (if !allowedFields.contains params.orderBy ∧ params.orderBy ≠ "created_at" ∧
          params.orderBy ≠ "updated_at"
       then "created_at" else params.orderBy)
    else params.orderBy
  { params with filters := validFilters, orderBy := orderBy }

/-- `Service.ListUsers`: sanitize the params, delegate to the repository,
and compute `hasMore := params.Limit > 0 && totalCount > int64(params.Offset+params.Limit)`. -/
def svcListUsers (w : World) (params : ListParams) :
    Except GoErr (List UserR × Bool × Int) × World :=
  let p := sanitizeListParams params
  match decoList w p with
  | (.error e, w1) => (.error (.wrap "failed to list users" e), w1)
  | (.ok (users, totalCount), w1) =>
    let hasMore := p.limit > 0 && totalCount > p.offset + p.limit
    (.ok (users, hasMore, totalCount), w1)

/-! ## Control-flow layer with fault injection

For the error-propagation claims, each decorator method (and the service
Create pre-check) is embedded once more as a pure function of the responses
its collaborators give it, translated branch by branch from part_011 /
service.go. `Except CacheErr _` injects Redis outcomes, `Except GoErr _`
store outcomes. -/

/-- Redis / deserialization fault outcomes on the cache side. -/
inductive CacheErr where
  | nilKey
  | transport (msg : String)
  | unmarshal
deriving DecidableEq, Repr

/-- Result errors of a decorator method: a store error propagated unchanged,
or a cache error wrapped by one of the three `fmt.Errorf` contexts
`error caching user`, `error invalidating cache`, `error caching updated user`. -/
inductive DecoErr where
  | store (e : GoErr)
  | cachingUser (e : CacheErr)
  | invalidating (e : CacheErr)
  | cachingUpdated (e : CacheErr)
deriving DecidableEq, Repr

/-- `CacheDecorator.GetByID` / `GetByEmail` / `GetByNickname` (the three
methods are syntactically identical up to the key): `getUserFromCache`
errors — `redis.Nil`, transport faults and unmarshal failures alike — fall
through to the store; a store error propagates; a failure of the
three-key populate is returned as `error caching user`. -/
def cfGet (cacheRead : Except CacheErr UserR) (repoGet : Except GoErr UserR)
    (cacheWrite : Except CacheErr Unit) : Except DecoErr UserR :=
  match cacheRead with
  | .ok u => .ok u
  | .error _ =>
    match repoGet with
    | .error e => .error (.store e)
    | .ok u =>
      match cacheWrite with
      | .error ce => .error (.cachingUser ce)
      | .ok _ => .ok u

/-- `CacheDecorator.Create` control flow. -/
def cfCreate (repoCreate : Except GoErr Unit) (cacheWrite : Except CacheErr Unit) :
    Except DecoErr Unit :=
  match repoCreate with
  | .error e => .error (.store e)
  | .ok _ =>
    match cacheWrite with
    | .error ce => .error (.cachingUser ce)
    | .ok _ => .ok ()

/-- `CacheDecorator.Update` control flow: get old record, store update,
cache invalidation, re-read, re-populate. -/
def cfUpdate (repoGetOld : Except GoErr UserR) (repoUpdate : Except GoErr Unit)
    (cacheInv : Except CacheErr Unit) (repoGetNew : Except GoErr UserR)
    (cacheWrite : Except CacheErr Unit) : Except DecoErr Unit :=
  match repoGetOld with
  | .error e => .error (.store e)
  | .ok _ =>
    match repoUpdate with
    | .error e => .error (.store e)
    | .ok _ =>
      match cacheInv with
      | .error ce => .error (.invalidating ce)
      | .ok _ =>
        match repoGetNew with
        | .error e => .error (.store e)
        | .ok _ =>
          match cacheWrite with
          | .error ce => .error (.cachingUpdated ce)
          | .ok _ => .ok ()

/-- `CacheDecorator.Delete` control flow. -/
def cfDelete (repoGet : Except GoErr UserR) (repoDelete : Except GoErr Unit)
    (cacheInv : Except CacheErr Unit) : Except DecoErr Unit :=
  match repoGet with
  | .error e => .error (.store e)
  | .ok _ =>
    match repoDelete with
    | .error e => .error (.store e)
    | .ok _ =>
      match cacheInv with
      | .error ce => .error (.invalidating ce)
      | .ok _ => .ok ()

/-- `Service.CreateUser` uniqueness pre-check and persist, as a function of
the two lookup responses and the repo create response: `err == nil` on the
by-email lookup means `ErrEmailTaken`, then `err == nil` on the by-nickname
lookup means `ErrNicknameTaken`; any lookup error lets creation proceed. -/
def cfSvcCreate (byEmail : Except GoErr UserR) (byNick : Except GoErr UserR)
    (createRes : Except GoErr Unit) (u : UserR) : Except GoErr UserR :=
  match byEmail with
  | .ok _ => .error .emailTaken
  | .error _ =>
    match byNick with
    | .ok _ => .error .nicknameTaken
    | .error _ =>
      match createRes with
      | .error e => .error (.wrap "failed to save user" e)
      | .ok _ => .ok u


/-! ## Derived predicates and concrete fixtures -/

instance {ε α : Type} [DecidableEq ε] [DecidableEq α] : DecidableEq (Except ε α) := fun x y =>
  match x, y with
  | .ok a, .ok b =>
    if h : a = b then .isTrue (by rw [h]) else .isFalse (fun he => h (by injection he))
  | .error a, .error b =>
    if h : a = b then .isTrue (by rw [h]) else .isFalse (fun he => h (by injection he))
  | .ok _, .error _ => .isFalse (fun he => Except.noConfusion he)
  | .error _, .ok _ => .isFalse (fun he => Except.noConfusion he)

/-- The three cache keys of `u` all hold the payload `marshalUser u`
(byte-identical serialized bytes). -/
def tripleSame (c : Cache) (u : UserR) : Prop :=
  c (.byId u.id) = some (marshalUser u) ∧
  c (.byEmail u.email) = some (marshalUser u) ∧
  c (.byNick u.nickname) = some (marshalUser u)

/-- The three cache keys of `u` are simultaneously absent. -/
def tripleAbsent (c : Cache) (u : UserR) : Prop :=
  c (.byId u.id) = none ∧ c (.byEmail u.email) = none ∧ c (.byNick u.nickname) = none

/-- Fixture users (concrete rows used by witnesses and counterexamples). -/
def uA : UserR :=
  ⟨1, "John", "Doe", "johndoe", "bcrypt$pw1", "john@example.com", "US", 10, 10⟩

def uB : UserR :=
  ⟨2, "Jane", "Smith", "janesmith", "bcrypt$pw2", "jane@example.com", "UK", 11, 11⟩

def uC : UserR :=
  ⟨3, "Bob", "Johnson", "bjohnson", "bcrypt$pw3", "bob@example.com", "US", 12, 12⟩

/-- A create request (id/timestamps zero: the orchestrator assigns them). -/
def reqD : UserR :=
  ⟨0, "New", "User", "newuser", "pw", "new@example.com", "DE", 0, 0⟩

/-- A create request reusing uA's email. -/
def reqDupEmail : UserR :=
  ⟨0, "New", "User", "newuser", "pw", "john@example.com", "DE", 0, 0⟩

/-- A create request reusing uA's nickname, fresh email. -/
def reqDupNick : UserR :=
  ⟨0, "New", "User", "johndoe", "pw", "new@example.com", "DE", 0, 0⟩

/-- An update request touching only `country` (all other strings empty). -/
def updCountry : UserR := ⟨0, "", "", "", "", "", "FR", 99, 99⟩

/-- uA with a changed email, as handed to the decorator's Update. -/
def uANewEmail : UserR := { uA with email := "john.new@example.com" }

/-- The row stored after `decoUpdate wACached uANewEmail 20`: uANewEmail
with the original created-at and the fresh server-side updated-at. -/
def uAUpdated : UserR := { uANewEmail with createdAt := 10, updatedAt := 20 }

/-- The record `Service.UpdateUser` returns for `updCountry` applied to a
cache-hit fetch of uA: payload of uA (password stripped by serialization)
with only the country replaced. -/
def uAMergedFR : UserR :=
  ⟨1, "John", "Doe", "johndoe", "", "john@example.com", "FR", 10, 10⟩

/-- Worlds (store plus cache) used as concrete witness states. -/
def wEmpty : World := ⟨[], emptyCache⟩

def wA : World := ⟨[uA], emptyCache⟩

def wABC : World := ⟨[uA, uB, uC], emptyCache⟩

/-- uA persisted and (coherently) cached: the state right after a
successful create or read-through of uA. -/
def wACached : World := ⟨[uA], cacheUser emptyCache uA⟩

/-- List params: page 2 of size 1, ordered by creation time. -/
def pPage2 : ListParams := ⟨1, 1, [], "created_at", false⟩

/-- List params: first 10, ordered by creation time. -/
def pAll : ListParams := ⟨10, 0, [], "created_at", false⟩

/-- List params with a disallowed filter field and a disallowed order-by. -/
def pBadOrder : ListParams := ⟨10, 0, [⟨"password_hash", "x"⟩], "bogus", false⟩

/-- List params with an empty order-by field. -/
def pEmptyOrder : ListParams := ⟨10, 0, [], "", false⟩

/-! ## Helper lemmas -/

theorem cacheUser_byId (c : Cache) (u : UserR) :
    cacheUser c u (.byId u.id) = some (marshalUser u) := by
  simp [cacheUser, cacheSet]

theorem cacheUser_byEmail (c : Cache) (u : UserR) :
    cacheUser c u (.byEmail u.email) = some (marshalUser u) := by
  simp [cacheUser, cacheSet]

theorem cacheUser_byNick (c : Cache) (u : UserR) :
    cacheUser c u (.byNick u.nickname) = some (marshalUser u) := by
  simp [cacheUser, cacheSet]

theorem cacheUser_byEmail_ne (c : Cache) (u : UserR) (e : String) (h : e ≠ u.email) :
    cacheUser c u (.byEmail e) = c (.byEmail e) := by
  simp [cacheUser, cacheSet, h]

theorem cacheUser_byNick_ne (c : Cache) (u : UserR) (n : String) (h : n ≠ u.nickname) :
    cacheUser c u (.byNick n) = c (.byNick n) := by
  simp [cacheUser, cacheSet, h]

theorem cacheUser_byId_ne (c : Cache) (u : UserR) (i : Nat) (h : i ≠ u.id) :
    cacheUser c u (.byId i) = c (.byId i) := by
  simp [cacheUser, cacheSet, h]

theorem invalidate_byId (c : Cache) (u : UserR) :
    invalidateUserCache c u (.byId u.id) = none := by
  simp [invalidateUserCache, cacheDel]

theorem invalidate_byEmail (c : Cache) (u : UserR) :
    invalidateUserCache c u (.byEmail u.email) = none := by
  simp [invalidateUserCache, cacheDel]

theorem invalidate_byNick (c : Cache) (u : UserR) :
    invalidateUserCache c u (.byNick u.nickname) = none := by
  simp [invalidateUserCache, cacheDel]

theorem dbGetByID_ok_iff {st : Store} {i : Nat} {u : UserR} :
    dbGetByID st i = .ok u ↔ st.find? (fun v => v.id == i) = some u := by
  unfold dbGetByID
  cases h : st.find? (fun v => v.id == i) <;> simp [h]

theorem dbGetByID_id {st : Store} {i : Nat} {u : UserR}
    (h : dbGetByID st i = .ok u) : u.id = i := by
  rw [dbGetByID_ok_iff] at h
  simpa using List.find?_some h

theorem find?_map_update (i : Nat) (g : UserR → UserR) (hg : ∀ v, (g v).id = i)
    (l : List UserR) (old : UserR)
    (h : l.find? (fun v => v.id == i) = some old) :
    (l.map (fun v => if v.id == i then g v else v)).find? (fun v => v.id == i)
      = some (g old) := by
  induction l with
  | nil => simp at h
  | cons a as ih =>
    by_cases ha : a.id = i
    · rw [List.find?_cons_of_pos _ (by simp [ha])] at h
      injection h with h2
      subst h2
      simp only [List.map_cons, if_pos (by simp [ha] : (a.id == i) = true)]
      exact List.find?_cons_of_pos _ (by simp [hg])
    · rw [List.find?_cons_of_neg _ (by simp [ha])] at h
      simp only [List.map_cons, if_neg (by simp [ha] : ¬ (a.id == i) = true)]
      rw [List.find?_cons_of_neg _ (by simp [ha])]
      exact ih h

/-! ## Claim theorems -/

/-- C3: in every decorator method, store errors propagate to the caller
unchanged (including NotFound); a cache read failure on a get — key absent
or any other cache-transport/unmarshal error — never fails the operation
and instead falls through to the store; and a cache error is returned to
the caller exactly when it occurs while writing or invalidating cache
entries: during Create, Update (invalidate-old and populate-new), Delete,
or while populating the three keys after a successful store read. -/
theorem claim_C3_failure_semantics :
    (∀ ce e cw, cfGet (.error ce) (.error e) cw = .error (.store e)) ∧
    (∀ e cw, cfCreate (.error e) cw = .error (.store e)) ∧
    (∀ e ru ci rg cw, cfUpdate (.error e) ru ci rg cw = .error (.store e)) ∧
    (∀ u e ci rg cw, cfUpdate (.ok u) (.error e) ci rg cw = .error (.store e)) ∧
    (∀ u e cw, cfUpdate (.ok u) (.ok ()) (.ok ()) (.error e) cw = .error (.store e)) ∧
    (∀ e rd ci, cfDelete (.error e) rd ci = .error (.store e)) ∧
    (∀ u e ci, cfDelete (.ok u) (.error e) ci = .error (.store e)) ∧
    (∀ ce ce2 rg cw, cfGet (.error ce) rg cw = cfGet (.error ce2) rg cw) ∧
    (∀ ce u, cfGet (.error ce) (.ok u) (.ok ()) = .ok u) ∧
    (∀ u rg cw, cfGet (.ok u) rg cw = .ok u) ∧
    (∀ ce u ce2, cfGet (.error ce) (.ok u) (.error ce2) = .error (.cachingUser ce2)) ∧
    (∀ ce, cfCreate (.ok ()) (.error ce) = .error (.cachingUser ce)) ∧
    (∀ u ce rg cw, cfUpdate (.ok u) (.ok ()) (.error ce) rg cw = .error (.invalidating ce)) ∧
    (∀ u v ce, cfUpdate (.ok u) (.ok ()) (.ok ()) (.ok v) (.error ce) = .error (.cachingUpdated ce)) ∧
    (∀ u ce, cfDelete (.ok u) (.ok ()) (.error ce) = .error (.invalidating ce)) ∧
    (cfCreate (.ok ()) (.ok ()) = .ok ()) ∧
    (∀ u v, cfUpdate (.ok u) (.ok ()) (.ok ()) (.ok v) (.ok ()) = .ok ()) ∧
    (∀ u, cfDelete (.ok u) (.ok ()) (.ok ()) = .ok ()) := by
  refine ⟨?_, ?_, ?_, ?_, ?_, ?_, ?_, ?_, ?_, ?_, ?_, ?_, ?_, ?_, ?_, ?_, ?_, ?_⟩ <;>
    intros <;> rfl

/-- C10: the CreateUser uniqueness pre-check yields EmailTaken exactly when
the by-email lookup succeeds and NicknameTaken exactly when the by-nickname
lookup succeeds; every lookup error — NotFound or any internal fault — is
treated as "key available" and creation proceeds to the repository, the
outcome being independent of which error the lookups produced, so a
faulting pre-check lookup never fails the create by itself. -/
theorem claim_C10_precheck_lookup :
    (∀ v bn cr u, cfSvcCreate (.ok v) bn cr u = .error .emailTaken) ∧
    (∀ e v cr u, cfSvcCreate (.error e) (.ok v) cr u = .error .nicknameTaken) ∧
    (∀ e e2 u, cfSvcCreate (.error e) (.error e2) (.ok ()) u = .ok u) ∧
    (∀ e e2 e3 u, cfSvcCreate (.error e) (.error e2) (.error e3) u
      = .error (.wrap "failed to save user" e3)) ∧
    (∀ e e2 e3 e4 cr u, cfSvcCreate (.error e) (.error e2) cr u
      = cfSvcCreate (.error e3) (.error e4) cr u) := by
  refine ⟨?_, ?_, ?_, ?_, ?_⟩ <;> intros <;> rfl

/-- C1: every record successfully written through the decorator — by
Create, by a get that fell through to the store, or by Update's
repopulation — has its three cache keys set to the same serialized payload,
and every invalidation (Update's invalidate-old step, Delete) deletes the
three keys of the affected record together, so the triple is byte-identical
or simultaneously absent. -/
theorem claim_C1_triple_consistency :
    (∀ c u, tripleSame (cacheUser c u) u) ∧
    (∀ c u, tripleAbsent (invalidateUserCache c u) u) ∧
    (∀ w u, (decoCreate w u).1 = .ok () → tripleSame (decoCreate w u).2.cache u) ∧
    (∀ w id u, w.cache (.byId id) = none → (decoGetByID w id).1 = .ok u →
      tripleSame (decoGetByID w id).2.cache u) ∧
    (∀ w e u, w.cache (.byEmail e) = none → (decoGetByEmail w e).1 = .ok u →
      tripleSame (decoGetByEmail w e).2.cache u) ∧
    (∀ w n u, w.cache (.byNick n) = none → (decoGetByNickname w n).1 = .ok u →
      tripleSame (decoGetByNickname w n).2.cache u) ∧
    (∀ w u now, (decoUpdate w u now).1 = .ok () →
      ∃ nr, dbGetByID (decoUpdate w u now).2.store u.id = .ok nr ∧
        tripleSame (decoUpdate w u now).2.cache nr) ∧
    (∀ w id old, dbGetByID w.store id = .ok old → (decoDelete w id).1 = .ok () →
      tripleAbsent (decoDelete w id).2.cache old) := by
  refine ⟨?_, ?_, ?_, ?_, ?_, ?_, ?_, ?_⟩
  · exact fun c u => ⟨cacheUser_byId c u, cacheUser_byEmail c u, cacheUser_byNick c u⟩
  · exact fun c u => ⟨invalidate_byId c u, invalidate_byEmail c u, invalidate_byNick c u⟩
  · intro w u h
    cases hc : dbCreate w.store u with
    | error e => simp [decoCreate, hc] at h
    | ok st2 =>
      simp only [decoCreate, hc]
      exact ⟨cacheUser_byId _ _, cacheUser_byEmail _ _, cacheUser_byNick _ _⟩
  · intro w id u hnone h
    simp only [decoGetByID, hnone] at h ⊢
    cases hg : dbGetByID w.store id with
    | error e => rw [hg] at h; simp at h
    | ok u0 =>
      rw [hg] at h
      have hu : u0 = u := by simpa using h
      subst hu
      exact ⟨cacheUser_byId _ _, cacheUser_byEmail _ _, cacheUser_byNick _ _⟩
  · intro w e u hnone h
    simp only [decoGetByEmail, hnone] at h ⊢
    cases hg : dbGetByEmail w.store e with
    | error err => rw [hg] at h; simp at h
    | ok u0 =>
      rw [hg] at h
      have hu : u0 = u := by simpa using h
      subst hu
      exact ⟨cacheUser_byId _ _, cacheUser_byEmail _ _, cacheUser_byNick _ _⟩
  · intro w n u hnone h
    simp only [decoGetByNickname, hnone] at h ⊢
    cases hg : dbGetByNickname w.store n with
    | error err => rw [hg] at h; simp at h
    | ok u0 =>
      rw [hg] at h
      have hu : u0 = u := by simpa using h
      subst hu
      exact ⟨cacheUser_byId _ _, cacheUser_byEmail _ _, cacheUser_byNick _ _⟩
  · intro w u now h
    cases hold : dbGetByID w.store u.id with
    | error e => simp [decoUpdate, hold] at h
    | ok oldUser =>
      cases hup : dbUpdate w.store u now with
      | error e => simp [decoUpdate, hold, hup] at h
      | ok st2 =>
        cases hnew : dbGetByID st2 u.id with
        | error e => simp [decoUpdate, hold, hup, hnew] at h
        | ok updatedUser =>
          refine ⟨updatedUser, ?_, ?_⟩
          · simp [decoUpdate, hold, hup, hnew]
          · simp only [decoUpdate, hold, hup, hnew]
            exact ⟨cacheUser_byId _ _, cacheUser_byEmail _ _, cacheUser_byNick _ _⟩
  · intro w id old hold h
    cases hdel : dbDelete w.store id with
    | error e => simp [decoDelete, hold, hdel] at h
    | ok st2 =>
      simp only [decoDelete, hold, hdel]
      exact ⟨invalidate_byId _ _, invalidate_byEmail _ _, invalidate_byNick _ _⟩

/-- Witness for C1: concrete runs — populating the empty cache with uA,
invalidating it, a create into the empty world, and a read-through get. -/
theorem claim_C1_triple_consistency_witness :
    (tripleSame (cacheUser emptyCache uA) uA ∧
      tripleAbsent (invalidateUserCache (cacheUser emptyCache uA) uA) uA) ∧
    ((decoCreate wEmpty uA).1 = .ok () ∧ tripleSame (decoCreate wEmpty uA).2.cache uA) ∧
    (wA.cache (.byId 1) = none ∧ (decoGetByID wA 1).1 = .ok uA ∧
      tripleSame (decoGetByID wA 1).2.cache uA) ∧
    ((decoUpdate wA uANewEmail 20).1 = .ok () ∧
      ∃ nr, dbGetByID (decoUpdate wA uANewEmail 20).2.store uANewEmail.id = .ok nr ∧
        tripleSame (decoUpdate wA uANewEmail 20).2.cache nr) ∧
    (dbGetByID wA.store 1 = .ok uA ∧ (decoDelete wA 1).1 = .ok () ∧
      tripleAbsent (decoDelete wA 1).2.cache uA) :=
  ⟨⟨claim_C1_triple_consistency.1 emptyCache uA,
    claim_C1_triple_consistency.2.1 (cacheUser emptyCache uA) uA⟩,
   ⟨by decide, claim_C1_triple_consistency.2.2.1 wEmpty uA (by decide)⟩,
   ⟨by decide, by decide,
    claim_C1_triple_consistency.2.2.2.1 wA 1 uA (by decide) (by decide)⟩,
   ⟨by decide, claim_C1_triple_consistency.2.2.2.2.2.2.1 wA uANewEmail 20 (by decide)⟩,
   ⟨by decide, by decide,
    claim_C1_triple_consistency.2.2.2.2.2.2.2 wA 1 uA (by decide) (by decide)⟩⟩

/-- C6: for every ListUsers call that succeeds, the returned hasMore flag is
true exactly when the limit is positive and offset + limit < totalCount
(so it is false whenever limit ≤ 0). -/
theorem claim_C6_hasMore (w : World) (params : ListParams)
    (users : List UserR) (hasMore : Bool) (total : Int)
    (h : (svcListUsers w params).1 = .ok (users, hasMore, total)) :
    hasMore = true ↔ 0 < params.limit ∧ params.offset + params.limit < total := by
  cases hl : dbList w.store (sanitizeListParams params) with
  | error e => simp [svcListUsers, decoList, hl] at h
  | ok res =>
    obtain ⟨us, tc⟩ := res
    have hp : (sanitizeListParams params).limit = params.limit ∧
        (sanitizeListParams params).offset = params.offset := ⟨rfl, rfl⟩
    simp only [svcListUsers, decoList, hl] at h
    have h2 := h
    simp only [Prod.mk.injEq, Except.ok.injEq] at h2
    obtain ⟨-, hm, ht⟩ := h2
    subst hm
    subst ht
    simp [hp.1, hp.2, and_comm]

/-- Witness for C6: 3 stored users; limit=1 offset=1 returns exactly one
user with totalCount 3 and hasMore true; limit=10 offset=0 returns all 3
with hasMore false. -/
theorem claim_C6_hasMore_witness :
    (svcListUsers wABC pPage2).1 = .ok ([uB], true, 3) ∧
    (true = true ↔ 0 < pPage2.limit ∧ pPage2.offset + pPage2.limit < 3) ∧
    (svcListUsers wABC pAll).1 = .ok ([uA, uB, uC], false, 3) :=
  ⟨by decide, claim_C6_hasMore wABC pPage2 [uB] true 3 (by decide), by decide⟩

/-- C7 counterexample: with an empty requested order-by — which is not in
the allow-list and is neither created_at nor updated_at — the order-by
passed to the repository is the empty string, not the default created_at,
and is not an allow-listed or timestamp field. -/
theorem claim_C7_counterexample :
    (¬ allowedFields.contains pEmptyOrder.orderBy ∧
      pEmptyOrder.orderBy ≠ "created_at" ∧ pEmptyOrder.orderBy ≠ "updated_at") ∧
    (sanitizeListParams pEmptyOrder).orderBy ≠ "created_at" ∧
    (¬ allowedFields.contains (sanitizeListParams pEmptyOrder).orderBy ∧
      (sanitizeListParams pEmptyOrder).orderBy ≠ "created_at" ∧
      (sanitizeListParams pEmptyOrder).orderBy ≠ "updated_at") := by decide

/-- C7 (amended): disallowed filters are silently dropped; whenever the
requested order-by is non-empty and neither allow-listed nor a timestamp
field, the order-by passed to the repository is created_at; consequently
every non-empty requested order-by reaches the store as an allow-listed or
timestamp field; an empty requested order-by is passed through unchanged. -/
theorem claim_C7_list_sanitization (params : ListParams) :
    ((sanitizeListParams params).filters
      = params.filters.filter (fun f => allowedFields.contains f.field)) ∧
    (params.orderBy ≠ "" → ¬ allowedFields.contains params.orderBy →
      params.orderBy ≠ "created_at" → params.orderBy ≠ "updated_at" →
      (sanitizeListParams params).orderBy = "created_at") ∧
    (params.orderBy ≠ "" →
      (allowedFields.contains (sanitizeListParams params).orderBy ∨
        (sanitizeListParams params).orderBy = "created_at" ∨
        (sanitizeListParams params).orderBy = "updated_at")) ∧
    (params.orderBy = "" → (sanitizeListParams params).orderBy = "") := by
  refine ⟨rfl, ?_, ?_, ?_⟩
  · intro h1 h2 h3 h4
    simp only [sanitizeListParams]
    rw [if_pos h1, if_pos ⟨by simpa using h2, h3, h4⟩]
  · intro h1
    simp only [sanitizeListParams]
    rw [if_pos h1]
    by_cases hc : allowedFields.contains params.orderBy
    · refine Or.inl ?_
      rw [if_neg (fun hC => by
        have hc2 : params.orderBy ∈ allowedFields := by simpa using hc
        simp [hc2] at hC)]
      exact hc
    · by_cases h2 : params.orderBy = "created_at"
      · refine Or.inr (Or.inl ?_)
        rw [if_neg (fun hC => hC.2.1 h2)]
        exact h2
      · by_cases h3 : params.orderBy = "updated_at"
        · refine Or.inr (Or.inr ?_)
          rw [if_neg (fun hC => hC.2.2 h3)]
          exact h3
        · refine Or.inr (Or.inl ?_)
          rw [if_pos ⟨by simpa using hc, h2, h3⟩]
  · intro h1
    simp [sanitizeListParams, h1]

/-- Witness for C7 (amended): a disallowed filter field is dropped and a
bogus non-empty order-by is replaced by created_at. -/
theorem claim_C7_list_sanitization_witness :
    (sanitizeListParams pBadOrder).filters = [] ∧
    (sanitizeListParams pBadOrder).orderBy = "created_at" :=
  ⟨by decide,
   (claim_C7_list_sanitization pBadOrder).2.1 (by decide) (by decide) (by decide) (by decide)⟩

/-- A successful decorator GetByID on a well-formed cache (every id key
holds a payload with that id — the only way `cacheUser` ever writes id
keys) returns a record carrying the looked-up id. -/
theorem decoGetByID_ok_id (w : World) (id : Nat) (u : UserR)
    (hwf : ∀ i v, w.cache (.byId i) = some v → v.id = i)
    (h : (decoGetByID w id).1 = .ok u) : u.id = id := by
  cases hc : w.cache (.byId id) with
  | some p =>
    have hp := hwf id p hc
    simp only [decoGetByID, hc] at h
    have : p = u := by simpa using h
    subst this
    exact hp
  | none =>
    simp only [decoGetByID, hc] at h
    cases hg : dbGetByID w.store id with
    | error e => rw [hg] at h; simp at h
    | ok u0 =>
      rw [hg] at h
      have : u0 = u := by simpa using h
      subst this
      exact dbGetByID_id hg

/-- Characterization of a successful `Service.UpdateUser` run: the fetch
succeeded, the persisted value is the merge (with the email applied when the
email-change branch ran), the decorator update succeeded on it, and the call
returns the merged record together with exactly one Updated event. -/
theorem svcUpdateUser_ok (w : World) (id : Nat) (upd : UserR) (now : Nat)
    (pf : Bool) (u : UserR)
    (h : (svcUpdateUser w id upd now pf).1 = .ok u) :
    ∃ user0 w1 w2,
      decoGetByID w id = (.ok user0, w1) ∧
      ((¬(upd.email ≠ "" ∧ (mergeNonEmpty user0 upd).email ≠ upd.email) ∧
          u = mergeNonEmpty user0 upd ∧ w2 = w1) ∨
        ((upd.email ≠ "" ∧ (mergeNonEmpty user0 upd).email ≠ upd.email) ∧
          u = { mergeNonEmpty user0 upd with email := upd.email } ∧
          w2 = (decoGetByEmail w1 upd.email).2)) ∧
      (decoUpdate w2 u now).1 = .ok () ∧
      svcUpdateUser w id upd now pf
        = (.ok u, (decoUpdate w2 u now).2, [⟨.updated, u.id⟩]) := by
  simp only [svcUpdateUser] at h
  cases h1 : decoGetByID w id with
  | mk r1 w1 =>
    rw [h1] at h
    cases r1 with
    | error e1 =>
      dsimp only at h
      split at h <;> simp at h
    | ok user0 =>
      dsimp only at h
      by_cases hC : upd.email ≠ "" ∧ (mergeNonEmpty user0 upd).email ≠ upd.email
      · rw [if_pos hC] at h
        cases h2 : decoGetByEmail w1 upd.email with
        | mk r2 w2 =>
          rw [h2] at h
          cases r2 with
          | ok existing =>
            dsimp only at h
            by_cases hEx : existing.id ≠ id
            · rw [if_pos hEx] at h
              simp at h
            · rw [if_neg hEx] at h
              dsimp only at h
              cases h3 : decoUpdate w2 { mergeNonEmpty user0 upd with email := upd.email } now with
              | mk r3 w3 =>
                rw [h3] at h
                cases r3 with
                | error e3 => simp at h
                | ok a =>
                  have hu : { mergeNonEmpty user0 upd with email := upd.email } = u := by
                    simpa using h
                  subst hu
                  refine ⟨user0, w1, w2, rfl, Or.inr ⟨hC, rfl, by rw [h2]⟩, ?_, ?_⟩
                  · rw [h3]
                  · simp only [svcUpdateUser]
                    rw [h1]
                    dsimp only
                    rw [if_pos hC, h2]
                    dsimp only
                    rw [if_neg hEx]
                    dsimp only
                    rw [h3]
          | error e2 =>
            dsimp only at h
            cases h3 : decoUpdate w2 { mergeNonEmpty user0 upd with email := upd.email } now with
            | mk r3 w3 =>
              rw [h3] at h
              cases r3 with
              | error e3 => simp at h
              | ok a =>
                have hu : { mergeNonEmpty user0 upd with email := upd.email } = u := by
                  simpa using h
                subst hu
                refine ⟨user0, w1, w2, rfl, Or.inr ⟨hC, rfl, by rw [h2]⟩, ?_, ?_⟩
                · rw [h3]
                · simp only [svcUpdateUser]
                  rw [h1]
                  dsimp only
                  rw [if_pos hC, h2]
                  dsimp only
                  rw [h3]
      · rw [if_neg hC] at h
        dsimp only at h
        cases h3 : decoUpdate w1 (mergeNonEmpty user0 upd) now with
        | mk r3 w3 =>
          rw [h3] at h
          cases r3 with
          | error e3 => simp at h
          | ok a =>
            have hu : mergeNonEmpty user0 upd = u := by simpa using h
            subst hu
            refine ⟨user0, w1, w1, rfl, Or.inl ⟨hC, rfl, rfl⟩, ?_, ?_⟩
            · rw [h3]
            · simp only [svcUpdateUser]
              rw [h1]
              dsimp only
              rw [if_neg hC]
              dsimp only
              rw [h3]

/-- C8: every successful CreateUser / UpdateUser / DeleteUser hands exactly
one event of the matching type, carrying the affected user's id, to the
publisher; and a publisher failure is swallowed — the entire outcome is
independent of whether publishing fails (the failure is only logged). -/
theorem claim_C8_event_emission :
    (∀ w req nid now pf u, (svcCreateUser w req nid now pf).1 = .ok u →
      (svcCreateUser w req nid now pf).2.2 = [⟨.created, u.id⟩]) ∧
    (∀ w id upd now pf u, (svcUpdateUser w id upd now pf).1 = .ok u →
      (svcUpdateUser w id upd now pf).2.2 = [⟨.updated, u.id⟩]) ∧
    (∀ w id pf, (∀ i v, w.cache (.byId i) = some v → v.id = i) →
      (svcDeleteUser w id pf).1 = .ok () →
      (svcDeleteUser w id pf).2.2 = [⟨.deleted, id⟩]) ∧
    (∀ w req nid now, svcCreateUser w req nid now true = svcCreateUser w req nid now false) ∧
    (∀ w id upd now, svcUpdateUser w id upd now true = svcUpdateUser w id upd now false) ∧
    (∀ w id, svcDeleteUser w id true = svcDeleteUser w id false) := by
  refine ⟨?_, ?_, ?_, fun _ _ _ _ => rfl, fun _ _ _ _ => rfl, fun _ _ => rfl⟩
  · intro w req nid now pf u h
    simp only [svcCreateUser] at h ⊢
    cases h1 : decoGetByEmail w (newUserFromReq req nid now).email with
    | mk r1 w1 =>
      rw [h1] at h
      cases r1 with
      | ok v => simp at h
      | error e1 =>
        dsimp only at h ⊢
        cases h2 : decoGetByNickname w1 (newUserFromReq req nid now).nickname with
        | mk r2 w2 =>
          rw [h2] at h
          cases r2 with
          | ok v => simp at h
          | error e2 =>
            dsimp only at h ⊢
            cases h3 : decoCreate w2 (newUserFromReq req nid now) with
            | mk r3 w3 =>
              rw [h3] at h
              cases r3 with
              | error e3 => simp at h
              | ok a =>
                have hu : newUserFromReq req nid now = u := by simpa using h
                subst hu
                rfl
  · intro w id upd now pf u h
    obtain ⟨user0, w1, w2, h1, hdisj, hup, heq⟩ := svcUpdateUser_ok w id upd now pf u h
    rw [heq]
  · intro w id pf hwf h
    have hid : ∀ v, (decoGetByID w id).1 = .ok v → v.id = id :=
      fun v hv => decoGetByID_ok_id w id v hwf hv
    simp only [svcDeleteUser] at h ⊢
    cases h1 : decoGetByID w id with
    | mk r1 w1 =>
      rw [h1] at h
      cases r1 with
      | error e1 =>
        dsimp only at h
        split at h <;> simp at h
      | ok u0 =>
        have hu0 : u0.id = id := hid u0 (by rw [h1])
        dsimp only at h ⊢
        cases h2 : decoDelete w1 id with
        | mk r2 w2 =>
          rw [h2] at h
          cases r2 with
          | error e2 => simp at h
          | ok a => simp [hu0]

/-- Witness for C8: a concrete create into the empty world emits exactly one
Created event with the new id, and a concrete delete of uA emits exactly one
Deleted event with uA's id, with a failing publisher in the first case. -/
theorem claim_C8_event_emission_witness :
    ((svcCreateUser wEmpty reqD 7 5 true).1 = .ok (newUserFromReq reqD 7 5) ∧
      (svcCreateUser wEmpty reqD 7 5 true).2.2 = [⟨.created, 7⟩]) ∧
    ((svcDeleteUser wA 1 false).1 = .ok () ∧
      (svcDeleteUser wA 1 false).2.2 = [⟨.deleted, 1⟩]) :=
  ⟨⟨by decide, by
      have := claim_C8_event_emission.1 wEmpty reqD 7 5 true (newUserFromReq reqD 7 5) (by decide)
      simpa using this⟩,
   ⟨by decide,
    claim_C8_event_emission.2.2.1 wA 1 false
      (fun i v hv => by simp [wA, emptyCache] at hv) (by decide)⟩⟩

/-- If some stored row has email `e`, the by-email select succeeds. -/
theorem dbGetByEmail_ok_of_mem {st : Store} {e : String}
    (h : ∃ v ∈ st, v.email = e) : ∃ u, dbGetByEmail st e = .ok u := by
  unfold dbGetByEmail
  cases hf : st.find? (fun v => v.email == e) with
  | some u => exact ⟨u, rfl⟩
  | none =>
    obtain ⟨v, hv, he⟩ := h
    rw [List.find?_eq_none] at hf
    exact absurd (by simp [he]) (hf v hv)

/-- If no stored row has email `e`, the by-email select is NotFound. -/
theorem dbGetByEmail_notFound {st : Store} {e : String}
    (h : ∀ v ∈ st, v.email ≠ e) : dbGetByEmail st e = .error .notFound := by
  unfold dbGetByEmail
  rw [List.find?_eq_none.mpr (fun v hv => by simpa using h v hv)]

/-- If some stored row has nickname `n`, the by-nickname select succeeds. -/
theorem dbGetByNickname_ok_of_mem {st : Store} {n : String}
    (h : ∃ v ∈ st, v.nickname = n) : ∃ u, dbGetByNickname st n = .ok u := by
  unfold dbGetByNickname
  cases hf : st.find? (fun v => v.nickname == n) with
  | some u => exact ⟨u, rfl⟩
  | none =>
    obtain ⟨v, hv, hn⟩ := h
    rw [List.find?_eq_none] at hf
    exact absurd (by simp [hn]) (hf v hv)

/-- C4: if a user with the requested email is stored, CreateUser fails with
EmailTaken; if the email is free (no stored row, no cache entry) but a user
with the requested nickname is stored, it fails with NicknameTaken; in both
cases the failure happens in the pre-check before Create is delegated, so
the set of stored users is unchanged. -/
theorem claim_C4_uniqueness_precheck (w : World) (req : UserR) (nid now : Nat)
    (pf : Bool) :
    ((∃ v ∈ w.store, v.email = req.email) →
      (svcCreateUser w req nid now pf).1 = .error .emailTaken ∧
      (svcCreateUser w req nid now pf).2.1.store = w.store) ∧
    ((∀ v ∈ w.store, v.email ≠ req.email) → w.cache (.byEmail req.email) = none →
      (∃ v ∈ w.store, v.nickname = req.nickname) →
      (svcCreateUser w req nid now pf).1 = .error .nicknameTaken ∧
      (svcCreateUser w req nid now pf).2.1.store = w.store) := by
  have hqe : (newUserFromReq req nid now).email = req.email := rfl
  have hqn : (newUserFromReq req nid now).nickname = req.nickname := rfl
  constructor
  · intro hex
    cases hc : w.cache (.byEmail req.email) with
    | some p =>
      constructor <;>
        simp [svcCreateUser, decoGetByEmail, newUserFromReq, hc]
    | none =>
      obtain ⟨u0, hu0⟩ := dbGetByEmail_ok_of_mem hex
      constructor <;>
        simp [svcCreateUser, decoGetByEmail, newUserFromReq, hc, hu0]
  · intro hno hce hnick
    have hf : dbGetByEmail w.store req.email = .error .notFound := dbGetByEmail_notFound hno
    cases hcn : w.cache (.byNick req.nickname) with
    | some p =>
      constructor <;>
        simp [svcCreateUser, decoGetByEmail, decoGetByNickname, newUserFromReq, hce, hf, hcn]
    | none =>
      obtain ⟨u0, hu0⟩ := dbGetByNickname_ok_of_mem hnick
      constructor <;>
        simp [svcCreateUser, decoGetByEmail, decoGetByNickname, newUserFromReq, hce, hf, hcn, hu0]

/-- Witness for C4: against a store holding uA, creating with uA's email
fails with EmailTaken, and creating with uA's nickname but a fresh email
fails with NicknameTaken; the store is unchanged both times. -/
theorem claim_C4_uniqueness_precheck_witness :
    ((svcCreateUser wA reqDupEmail 9 20 false).1 = .error .emailTaken ∧
      (svcCreateUser wA reqDupEmail 9 20 false).2.1.store = wA.store) ∧
    ((svcCreateUser wA reqDupNick 9 20 false).1 = .error .nicknameTaken ∧
      (svcCreateUser wA reqDupNick 9 20 false).2.1.store = wA.store) :=
  ⟨(claim_C4_uniqueness_precheck wA reqDupEmail 9 20 false).1 (by decide),
   (claim_C4_uniqueness_precheck wA reqDupNick 9 20 false).2
     (by decide) (by decide) (by decide)⟩

/-- C2: for a successful decorator Update that changes the email from A to
B, the post-state store holds the updated row; the cache key for A is
absent — so a lookup by A misses and falls through to the store — while the
cache key for B holds the updated row's payload, so a lookup by B hits it.
(The invalidate-old-then-populate-new ordering is the body of
`decoUpdate`.) -/
theorem claim_C2_invalidate_before_populate (w : World) (u old nr : UserR) (now : Nat)
    (hold : dbGetByID w.store u.id = .ok old)
    (hchanged : old.email ≠ u.email)
    (hnr : nr = { u with createdAt := old.createdAt, updatedAt := now })
    (hok : (decoUpdate w u now).1 = .ok ()) :
    dbGetByID (decoUpdate w u now).2.store u.id = .ok nr ∧
    (decoUpdate w u now).2.cache (.byEmail old.email) = none ∧
    (decoUpdate w u now).2.cache (.byEmail u.email) = some (marshalUser nr) ∧
    (decoGetByEmail (decoUpdate w u now).2 old.email).1
      = dbGetByEmail (decoUpdate w u now).2.store old.email ∧
    (decoGetByEmail (decoUpdate w u now).2 u.email).1 = .ok (marshalUser nr) := by
  subst hnr
  cases hup : dbUpdate w.store u now with
  | error e => simp [decoUpdate, hold, hup] at hok
  | ok st2 =>
    have hfind : w.store.find? (fun v => v.id == u.id) = some old := dbGetByID_ok_iff.mp hold
    have hst2 : st2 = w.store.map
        (fun v => if v.id == u.id then { u with createdAt := v.createdAt, updatedAt := now } else v) := by
      unfold dbUpdate at hup
      split at hup
      · exact absurd hup (by simp)
      · split at hup
        · exact absurd hup (by simp)
        · split at hup
          · injection hup with h2
            exact h2.symm
          · exact absurd hup (by simp)
    have hgnew : dbGetByID st2 u.id
        = .ok { u with createdAt := old.createdAt, updatedAt := now } := by
      rw [dbGetByID_ok_iff, hst2]
      exact find?_map_update u.id
        (fun v => { u with createdAt := v.createdAt, updatedAt := now })
        (fun v => rfl) w.store old hfind
    have hrun : decoUpdate w u now
        = (.ok (), ⟨st2, cacheUser (invalidateUserCache w.cache old)
            { u with createdAt := old.createdAt, updatedAt := now }⟩) := by
      simp only [decoUpdate]
      rw [hold]
      dsimp only
      rw [hup]
      dsimp only
      rw [hgnew]
    rw [hrun]
    dsimp only
    have hchanged2 : old.email ≠
        ({ u with createdAt := old.createdAt, updatedAt := now } : UserR).email := hchanged
    have hcnone : cacheUser (invalidateUserCache w.cache old)
        { u with createdAt := old.createdAt, updatedAt := now } (.byEmail old.email) = none := by
      rw [cacheUser_byEmail_ne _ _ _ hchanged2]
      exact invalidate_byEmail w.cache old
    refine ⟨hgnew, hcnone, cacheUser_byEmail _ _, ?_, ?_⟩
    · simp only [decoGetByEmail]
      rw [hcnone]
      cases hge : dbGetByEmail st2 old.email <;> simp
    · simp only [decoGetByEmail]
      rw [cacheUser_byEmail _ _]

/-- Witness for C2: updating cached-and-stored uA to a new email; the old
email key is gone, the new email key holds the updated payload, a lookup by
the old email falls through to the store and a lookup by the new email hits. -/
theorem claim_C2_invalidate_before_populate_witness :
    dbGetByID (decoUpdate wACached uANewEmail 20).2.store uANewEmail.id = .ok uAUpdated ∧
    (decoUpdate wACached uANewEmail 20).2.cache (.byEmail uA.email) = none ∧
    (decoUpdate wACached uANewEmail 20).2.cache (.byEmail uANewEmail.email)
      = some (marshalUser uAUpdated) ∧
    (decoGetByEmail (decoUpdate wACached uANewEmail 20).2 uA.email).1
      = dbGetByEmail (decoUpdate wACached uANewEmail 20).2.store uA.email ∧
    (decoGetByEmail (decoUpdate wACached uANewEmail 20).2 uANewEmail.email).1
      = .ok (marshalUser uAUpdated) :=
  claim_C2_invalidate_before_populate wACached uANewEmail uA uAUpdated 20
    (by decide) (by decide) (by decide) (by decide)

/-- The merge step applies exactly the non-empty string fields of the
request onto the fetched copy; id, password, email and the timestamps are
never touched by it. -/
theorem mergeNonEmpty_eq (user upd : UserR) :
    mergeNonEmpty user upd =
      { user with
        firstName := if upd.firstName = "" then user.firstName else upd.firstName,
        lastName := if upd.lastName = "" then user.lastName else upd.lastName,
        nickname := if upd.nickname = "" then user.nickname else upd.nickname,
        country := if upd.country = "" then user.country else upd.country } := by
  simp only [mergeNonEmpty]
  repeat' split
  all_goals simp_all

/-- A successful decorator Update, started from a store whose row at `u.id`
is `old`, leaves the store with the row replaced by `u` except that
created-at is kept and updated-at is stamped with the clock. -/
theorem decoUpdate_ok_store (w : World) (u old : UserR) (now : Nat)
    (hold : dbGetByID w.store u.id = .ok old)
    (hok : (decoUpdate w u now).1 = .ok ()) :
    dbGetByID (decoUpdate w u now).2.store u.id
      = .ok { u with createdAt := old.createdAt, updatedAt := now } := by
  cases hup : dbUpdate w.store u now with
  | error e => simp [decoUpdate, hold, hup] at hok
  | ok st2 =>
    have hfind : w.store.find? (fun v => v.id == u.id) = some old := dbGetByID_ok_iff.mp hold
    have hst2 : st2 = w.store.map
        (fun v => if v.id == u.id then { u with createdAt := v.createdAt, updatedAt := now } else v) := by
      unfold dbUpdate at hup
      split at hup
      · exact absurd hup (by simp)
      · split at hup
        · exact absurd hup (by simp)
        · split at hup
          · injection hup with h2
            exact h2.symm
          · exact absurd hup (by simp)
    have hgnew : dbGetByID st2 u.id
        = .ok { u with createdAt := old.createdAt, updatedAt := now } := by
      rw [dbGetByID_ok_iff, hst2]
      exact find?_map_update u.id
        (fun v => { u with createdAt := v.createdAt, updatedAt := now })
        (fun v => rfl) w.store old hfind
    have hrun : decoUpdate w u now
        = (.ok (), ⟨st2, cacheUser (invalidateUserCache w.cache old)
            { u with createdAt := old.createdAt, updatedAt := now }⟩) := by
      simp only [decoUpdate]
      rw [hold]
      dsimp only
      rw [hup]
      dsimp only
      rw [hgnew]
    rw [hrun]
    exact hgnew

/-- C5: the merge applies exactly the non-empty string fields of the request
(empty string means "no change"); and for an update touching only country,
started from a stored row `old` whose by-id cache entry is absent or
coherent, the stored row afterwards keeps first/last name, nickname, email
and created-at, while its updated-at is stamped server-side with the clock
`now` (so it strictly increases whenever the clock does), independently of
the request's timestamps. -/
theorem claim_C5_partial_update :
    (∀ user upd, mergeNonEmpty user upd =
      { user with
        firstName := if upd.firstName = "" then user.firstName else upd.firstName,
        lastName := if upd.lastName = "" then user.lastName else upd.lastName,
        nickname := if upd.nickname = "" then user.nickname else upd.nickname,
        country := if upd.country = "" then user.country else upd.country }) ∧
    (∀ w id upd old now pf u,
      dbGetByID w.store id = .ok old →
      (w.cache (.byId id) = none ∨ w.cache (.byId id) = some (marshalUser old)) →
      upd.firstName = "" → upd.lastName = "" → upd.nickname = "" → upd.email = "" →
      (svcUpdateUser w id upd now pf).1 = .ok u →
      ∃ row, dbGetByID (svcUpdateUser w id upd now pf).2.1.store id = .ok row ∧
        row.firstName = old.firstName ∧ row.lastName = old.lastName ∧
        row.nickname = old.nickname ∧ row.email = old.email ∧
        row.createdAt = old.createdAt ∧ row.updatedAt = now ∧
        (old.updatedAt < now → old.updatedAt < row.updatedAt)) := by
  refine ⟨mergeNonEmpty_eq, ?_⟩
  intro w id upd old now pf u hold hcoh hf hl hn he hok
  have hidold : old.id = id := dbGetByID_id hold
  obtain ⟨user0, w1, w2, h1, hdisj, hup, heq⟩ := svcUpdateUser_ok w id upd now pf u hok
  rcases hdisj with ⟨-, huM, hw2⟩ | ⟨⟨hne, -⟩, -, -⟩
  swap
  · exact absurd he hne
  subst huM
  rw [hw2] at hup heq
  -- the fetched copy agrees with the stored row on the public fields
  have hfetch : (user0.firstName = old.firstName ∧ user0.lastName = old.lastName ∧
      user0.nickname = old.nickname ∧ user0.email = old.email ∧ user0.id = old.id) ∧
      w1.store = w.store := by
    rcases hcoh with hc | hc
    · have h1' := h1
      simp only [decoGetByID, hc] at h1'
      rw [hold] at h1'
      injection h1' with ha hb
      injection ha with ha2
      subst ha2
      exact ⟨⟨rfl, rfl, rfl, rfl, rfl⟩, by rw [← hb]⟩
    · have h1' := h1
      simp only [decoGetByID, hc] at h1'
      injection h1' with ha hb
      injection ha with ha2
      subst ha2
      exact ⟨⟨rfl, rfl, rfl, rfl, rfl⟩, by rw [← hb]⟩
  obtain ⟨⟨hb1, hb2, hb3, hb4, hb5⟩, hw1⟩ := hfetch
  -- merged record under the all-empty hypotheses
  have hmrg := mergeNonEmpty_eq user0 upd
  rw [hf, hl, hn] at hmrg
  simp only [if_pos rfl] at hmrg
  -- the merged id/email equal the stored ones
  have hmid : (mergeNonEmpty user0 upd).id = id := by rw [hmrg]; rw [hb5]; exact hidold
  have hold2 : dbGetByID w1.store (mergeNonEmpty user0 upd).id = .ok old := by
    rw [hw1, hmid]
    exact hold
  have hrow := decoUpdate_ok_store w1 (mergeNonEmpty user0 upd) old now hold2 hup
  refine ⟨{ mergeNonEmpty user0 upd with createdAt := old.createdAt, updatedAt := now },
    ?_, ?_, ?_, ?_, ?_, rfl, rfl, fun hlt => hlt⟩
  · rw [heq]
    dsimp only
    rw [← hmid]
    exact hrow
  · rw [hmrg]; exact hb1
  · rw [hmrg]; exact hb2
  · rw [hmrg]; exact hb3
  · rw [hmrg]; exact hb4

/-- Witness for C5: updating only the country of cached-and-stored uA
(request carries unrelated timestamps 99) leaves name, nickname, email and
created-at unchanged in the store and stamps updated-at with the clock 20. -/
theorem claim_C5_partial_update_witness :
    ∃ row, dbGetByID (svcUpdateUser wACached 1 updCountry 20 false).2.1.store 1
        = .ok row ∧
      row.firstName = uA.firstName ∧ row.lastName = uA.lastName ∧
      row.nickname = uA.nickname ∧ row.email = uA.email ∧
      row.createdAt = uA.createdAt ∧ row.updatedAt = 20 ∧
      (uA.updatedAt < 20 → uA.updatedAt < row.updatedAt) :=
  claim_C5_partial_update.2 wACached 1 updCountry uA 20 false uAMergedFR
    (by decide) (Or.inr (by decide)) (by decide) (by decide) (by decide) (by decide)
    (by decide)

/-- C9 at the failing input: uA is stored with a non-empty bcrypt hash and
its cache triple is present and coherent. Because the cached payload omits
the password (json tag `-`), the update fetch returns it empty, the merge
leaves it empty, and the repository UPDATE persists password_hash = "":
the pre-update hash is lost even though the request carries no password. -/
theorem claim_C9_password_wiped_on_cached_update :
    uA.password = "bcrypt$pw1" ∧
    wACached.cache (.byId 1) = some (marshalUser uA) ∧
    dbGetByID wACached.store 1 = .ok uA ∧
    (svcUpdateUser wACached 1 updCountry 20 false).1 = .ok uAMergedFR ∧
    dbGetByID (svcUpdateUser wACached 1 updCountry 20 false).2.1.store 1
      = .ok ⟨1, "John", "Doe", "johndoe", "", "john@example.com", "FR", 10, 20⟩ ∧
    ("" : String) ≠ uA.password := by decide
